import Mathlib

/-!
Shallow embedding of the hangman game engine from `src/hangman.py`.

Python strings are modelled as lists of characters (`PyStr`); the list of
previously guessed letters (`old_letters_guessed` in the source) is a Python
list of strings, modelled as `List PyStr`.  Python string operations that the
engine uses are modelled explicitly: lexicographic comparison (`pyStrLe` for
the chained comparison on line 339), substring membership (`isSubstring` for
`letter_guessed in secret_word` on line 499), list membership
(`List.contains` for `in` on a list), `str.lower` (`pyLower`, ASCII range),
`str.split()` with no argument (`pySplit`) and `str.join` (`pyJoin`).
-/

namespace Hangman

/-- Python strings are modelled as lists of characters. -/
abbrev PyStr := List Char

/-- Lowercasing of one character, as `str.lower` acts on the ASCII range
(the only range the game logic distinguishes). -/
def pyLowerChar (c : Char) : Char :=
  if 'A' ≤ c ∧ c ≤ 'Z' then Char.ofNat (c.toNat + 32) else c

/-- Model of Python `str.lower`. -/
def pyLower (s : PyStr) : PyStr := s.map pyLowerChar

/-- Model of Python string comparison `s <= t`: lexicographic on code points. -/
def pyStrLe : PyStr → PyStr → Bool
  | [], _ => true
  | _ :: _, [] => false
  | a :: s, b :: t => if a < b then true else if b < a then false else pyStrLe s t

/-- Model of Python `sub in s` on strings: contiguous substring test. -/
def isSubstring : PyStr → PyStr → Bool
  | sub, [] => sub.isEmpty
  | sub, c :: rest => sub.isPrefixOf (c :: rest) || isSubstring sub rest

/-- Model of Python `sep.join(cells)`. -/
def pyJoin (sep : PyStr) : List PyStr → PyStr
  | [] => []
  | [s] => s
  | s :: rest => s ++ sep ++ pyJoin sep rest

/-- True on the characters Python `str.split()` (no argument) splits on. -/
def isPySpace (c : Char) : Bool :=
  c = ' ' || c = '\t' || c = '\n' || c = '\r' || c = '\x0b' || c = '\x0c'

/-- Accumulator worker for `pySplit`; the accumulator holds the current token
reversed. -/
def pySplitAux : PyStr → PyStr → List PyStr
  | [], acc => if acc.isEmpty then [] else [acc.reverse]
  | c :: rest, acc =>
    if isPySpace c then
      if acc.isEmpty then pySplitAux rest [] else acc.reverse :: pySplitAux rest []
    else pySplitAux rest (c :: acc)

/-- Model of Python `str.split()` with no argument: whitespace-run separated
tokens, no empty token. -/
def pySplit (s : PyStr) : List PyStr := pySplitAux s []

/-- From `show_hidden_word` (hangman.py lines 312-320): the per-position cells
(`revealed_word_chars_list` in the source): the letter if it was guessed,
an underscore otherwise. -/
def revealed_word_chars_list (secret_word : PyStr) (old_letters_guessed : List PyStr) :
    List PyStr :=
  secret_word.map (fun letter =>
    if old_letters_guessed.contains [letter] then [letter] else ['_'])

/-- From `show_hidden_word` (hangman.py lines 301-322): the cells joined by
a single space (`" ".join(revealed_word_chars_list)`). -/
def show_hidden_word (secret_word : PyStr) (old_letters_guessed : List PyStr) : PyStr :=
  pyJoin [' '] (revealed_word_chars_list secret_word old_letters_guessed)

/-- From `check_valid_input` (hangman.py lines 325-339):
`(len(letter_guessed) == 1) and ('a' <= letter_guessed <= 'z') and
(letter_guessed not in old_letters_guessed)`.  The middle test is a chained
Python string comparison, hence `pyStrLe`. -/
def check_valid_input (letter_guessed : PyStr) (old_letters_guessed : List PyStr) : Bool :=
  (letter_guessed.length == 1) &&
    (pyStrLe ['a'] letter_guessed && pyStrLe letter_guessed ['z']) &&
    !(old_letters_guessed.contains letter_guessed)

/-- From `try_update_letter_guessed` (hangman.py lines 342-368): lowercases the
raw guess, validates the lowered letter and appends it to the guessed list when
valid.  The source mutates the list in place and returns a boolean; the model
returns the boolean together with the list after the call. -/
def try_update_letter_guessed (letter_guessed : PyStr) (old_letters_guessed : List PyStr) :
    Bool × List PyStr :=
  if check_valid_input (pyLower letter_guessed) old_letters_guessed then
    (true, old_letters_guessed ++ [pyLower letter_guessed])
  else
    (false, old_letters_guessed)

/-- From `check_win` (hangman.py lines 371-386): every letter of the secret
word is a member of the guessed-letter list. -/
def check_win (secret_word : PyStr) (old_letters_guessed : List PyStr) : Bool :=
  secret_word.all (fun i => old_letters_guessed.contains [i])

/-- Failure modes of `choose_word` (hangman.py lines 389-414).
`zeroDivisionError` is what Python raises at `index %= words_num` when the
token list is empty.  `emptyWordListError` is modelled from the spec: the spec
names an `EmptyWordListError` for a zero-token source, but the source defines
no such class; the constructor exists only so that statements can compare the
actual failure against the one the spec names. -/
inductive LoadError where
  | zeroDivisionError : LoadError
  | emptyWordListError : LoadError
deriving DecidableEq

/-- Index-resolution core of `choose_word` (hangman.py lines 407-414): with
`words_num = len(words_list)`, Python runs `index -= 1; index %= words_num` and
returns `words_list[index]`.  When `words_num` is zero the `%=` raises
`ZeroDivisionError`; otherwise the Python `%` of a positive modulus is `emod`
(always in `[0, words_num - 1]`). -/
def choose_word_from_list (words_list : List PyStr) (index : Int) :
    Except LoadError PyStr :=
  if words_list.length = 0 then
    Except.error LoadError.zeroDivisionError
  else
    Except.ok (words_list.getD ((index - 1) % (words_list.length : Int)).toNat [])

/-- From `choose_word` (hangman.py lines 389-414): the file content is split on
whitespace and the index resolved circularly.  The file read itself is I/O; the
model takes the content of the source. -/
def choose_word (content : PyStr) (index : Int) : Except LoadError PyStr :=
  choose_word_from_list (pySplit content) index

/-- MAX_TRIES constant of `hangman` (hangman.py line 478). -/
def MAX_TRIES : Nat := 6

/-- Mutable state of one `hangman` playthrough (hangman.py lines 484-485). -/
structure GameState where
  old_letters_guessed : List PyStr
  num_of_tries : Nat
deriving DecidableEq

/-- How one playthrough ends: `won` when WIN is printed, `lost` when the loop
stops because `num_of_tries` reached `MAX_TRIES` (LOSE is printed at that
moment), `ongoing` when the modelled input sequence is exhausted first. -/
inductive Outcome where
  | won : Outcome
  | lost : Outcome
  | ongoing : Outcome
deriving DecidableEq

/-- The session loop of `hangman` (hangman.py lines 491-519), processing one
raw input per iteration.  Note line 499 of the source tests the RAW guess
`letter_guessed in secret_word`, while `try_update_letter_guessed` lowered the
guess before appending it. -/
def hangman_loop (secret_word : PyStr) : List PyStr → GameState → GameState × Outcome
  | inputs, st =>
    if st.num_of_tries < MAX_TRIES then
      match inputs with
      | [] => (st, Outcome.ongoing)
      | letter_guessed :: rest =>
        let upd := try_update_letter_guessed letter_guessed st.old_letters_guessed
        if upd.1 then
          if isSubstring letter_guessed secret_word then
            if check_win secret_word upd.2 then
              (⟨upd.2, st.num_of_tries⟩, Outcome.won)
            else
              hangman_loop secret_word rest ⟨upd.2, st.num_of_tries⟩
          else
            hangman_loop secret_word rest ⟨upd.2, st.num_of_tries + 1⟩
        else
          hangman_loop secret_word rest ⟨upd.2, st.num_of_tries⟩
    else (st, Outcome.lost)

/-- One full playthrough of `hangman` (hangman.py lines 470-519) on a sequence
of raw inputs, from the fresh state of lines 484-485. -/
def hangman (secret_word : PyStr) (inputs : List PyStr) : GameState × Outcome :=
  hangman_loop secret_word inputs ⟨[], 0⟩

/-- The count the GameState invariant of the spec prescribes for the
wrong-guess counter: the number of letters in the guessed-letter list that do
not occur in the secret word. -/
def spec_wrong_count (secret_word : PyStr) (guessed : List PyStr) : Nat :=
  (guessed.filter (fun s => !(isSubstring s secret_word))).length

/-! Helper lemmas. -/

/-- Python comparison of two one-character strings is the comparison of the
characters. -/
theorem pyStrLe_single (a b : Char) : pyStrLe [a] [b] = true ↔ a ≤ b := by
  by_cases h1 : a < b
  · simp [pyStrLe, h1, le_of_lt h1]
  · by_cases h2 : b < a
    · simp [pyStrLe, h1, h2, not_le.mpr h2]
    · have hab : a = b := le_antisymm (not_lt.mp h2) (not_lt.mp h1)
      subst hab
      simp [pyStrLe, h1]

/-- Unfolding equation of `pyJoin` on a list of at least two cells. -/
theorem pyJoin_cons_cons (sep s t : PyStr) (rest : List PyStr) :
    pyJoin sep (s :: t :: rest) = s ++ sep ++ pyJoin sep (t :: rest) := rfl

/-- Joining one-character cells with a one-character separator gives a string
of length `2 * n - 1` (which is `0` for no cells, by Nat subtraction). -/
theorem pyJoin_length_of_cells (L : List PyStr) (h : ∀ cell ∈ L, cell.length = 1) :
    (pyJoin [' '] L).length = 2 * L.length - 1 := by
  induction L with
  | nil => simp [pyJoin]
  | cons s rest ih =>
    cases rest with
    | nil =>
      have hs := h s (by simp)
      simp [pyJoin, hs]
    | cons t rest2 =>
      have hs := h s (by simp)
      have hrest : ∀ cell ∈ t :: rest2, cell.length = 1 := fun cell hc => h cell (by simp [hc])
      have ihr := ih hrest
      rw [pyJoin_cons_cons]
      simp only [List.length_append, List.length_cons, List.length_nil, hs] at ihr ⊢
      omega

/-- Every cell `show_hidden_word` builds is one character long. -/
theorem revealed_cells_length_one (w : PyStr) (G : List PyStr) :
    ∀ cell ∈ revealed_word_chars_list w G, cell.length = 1 := by
  intro cell hc
  rcases List.mem_map.mp hc with ⟨c, -, rfl⟩
  by_cases h : G.contains [c] = true
  · rw [if_pos h]; rfl
  · rw [if_neg h]; rfl

/-! Claim theorems. -/

/-- Claim C1: the session-loop invariant "the wrong-guess counter equals the
number of guessed letters that do not occur in the secret word" is broken by
the code on an un-lowercased input.  With secret word "a" and the single raw
input "A", `try_update_letter_guessed` lowercases and appends "a" (which does
occur in the word), but line 499 of the source tests the raw string "A"
against the word, so `num_of_tries` is incremented to 1 while the count the
invariant prescribes is 0. -/
theorem hangman_uppercase_guess_breaks_wrong_count_invariant :
    (hangman ['a'] [['A']]).1.num_of_tries
        ≠ spec_wrong_count ['a'] ((hangman ['a'] [['A']]).1.old_letters_guessed) ∧
      (hangman ['a'] [['A']]).1 = ⟨[['a']], 1⟩ ∧
      spec_wrong_count ['a'] [['a']] = 0 := by
  decide

/-- Claim C2, amended: the raw guesses "5" and "ab" are rejected as
inadmissible and leave the guessed-letter list unchanged, for every list of
previous guesses; the raw guess "A" however is lowercased by
`try_update_letter_guessed` itself, so it is accepted (appending "a") exactly
when "a" has not been guessed before, and rejected without mutation
otherwise. -/
theorem try_update_guess_scenarios (G : List PyStr) :
    try_update_letter_guessed ['5'] G = (false, G) ∧
      try_update_letter_guessed ['a', 'b'] G = (false, G) ∧
      try_update_letter_guessed ['A'] G
        = (if G.contains ['a'] then (false, G) else (true, G ++ [['a']])) := by
  refine ⟨rfl, rfl, ?_⟩
  have hcv : check_valid_input (pyLower ['A']) G = !(G.contains ['a']) := rfl
  have hlow : pyLower ['A'] = ['a'] := rfl
  unfold try_update_letter_guessed
  rw [hcv, hlow]
  cases hc : G.contains ['a'] <;> simp [hc]

/-- Claim C2, counterexample to the claim as stated: the raw guess "A" with no
previous guesses is NOT rejected: `try_update_letter_guessed` returns True and
appends the lowered letter "a". -/
theorem try_update_accepts_raw_uppercase_A :
    try_update_letter_guessed ['A'] [] = (true, [['a']]) := by
  decide

/-- Claim C3, amended: the per-position cell list built by `show_hidden_word`
has the same length as the secret word, and cell `p` is the letter `w[p]` when
that letter is a member of the guessed list and an underscore otherwise; the
returned STRING is these cells joined by single spaces, so its length is
`2 * len(w) - 1` (`0` for the empty word), not `len(w)`. -/
theorem show_hidden_word_cells_spec (w : PyStr) (G : List PyStr) :
    (revealed_word_chars_list w G).length = w.length ∧
      (∀ p : Nat, (revealed_word_chars_list w G)[p]?
        = w[p]?.map (fun c => if G.contains [c] then [c] else ['_'])) ∧
      show_hidden_word w G = pyJoin [' '] (revealed_word_chars_list w G) ∧
      (show_hidden_word w G).length = 2 * w.length - 1 := by
  refine ⟨by simp [revealed_word_chars_list], ?_, rfl, ?_⟩
  · intro p
    simp [revealed_word_chars_list, List.getElem?_map]
  · have hlen : (revealed_word_chars_list w G).length = w.length := by
      simp [revealed_word_chars_list]
    have key := pyJoin_length_of_cells _ (revealed_cells_length_one w G)
    rw [hlen] at key
    exact key

/-- Claim C3, counterexample to the claim as stated: for the secret word "cat"
with guessed list ["c"], the string `show_hidden_word` returns is "c _ _" of
length 5, not of length 3. -/
theorem show_hidden_word_length_differs_from_word :
    ¬ ((show_hidden_word ['c', 'a', 't'] [['c']]).length
        = (['c', 'a', 't'] : PyStr).length) := by
  decide

/-- Claim C4, amended: loading from a source whose content splits into zero
whitespace-separated tokens fails, but with the ZeroDivisionError that
`index %= words_num` raises on a zero-length list, not with the
EmptyWordListError the spec names (the source defines no such error). -/
theorem choose_word_empty_tokens_zero_division (content : PyStr) (index : Int)
    (h : pySplit content = []) :
    choose_word content index = Except.error LoadError.zeroDivisionError := by
  simp [choose_word, h, choose_word_from_list]

/-- Claim C4, witness: the empty source content splits into zero tokens and
the load fails with the division-by-zero error. -/
theorem choose_word_empty_tokens_zero_division_witness :
    choose_word [] 1 = Except.error LoadError.zeroDivisionError :=
  choose_word_empty_tokens_zero_division [] 1 rfl

/-- Claim C4, counterexample to the claim as stated: on the empty content the
failure is a ZeroDivisionError, which is not the EmptyWordListError the claim
names. -/
theorem choose_word_empty_tokens_not_spec_error :
    choose_word [] 1 = Except.error LoadError.zeroDivisionError ∧
      LoadError.zeroDivisionError ≠ LoadError.emptyWordListError := by
  exact ⟨rfl, by decide⟩

/-- Claim C5: for every non-empty word list and every integer index, resolving
`index` and resolving `index + N` (with `N` the list length) yield the same
word; the modulus `(index - 1) % N` is non-negative and the resolved word is
the list element at that position. -/
theorem choose_word_circular (words_list : List PyStr) (index : Int)
    (h : words_list ≠ []) :
    choose_word_from_list words_list index
        = choose_word_from_list words_list (index + words_list.length) ∧
      0 ≤ (index - 1) % (words_list.length : Int) ∧
      choose_word_from_list words_list index
        = Except.ok
            (words_list.getD ((index - 1) % (words_list.length : Int)).toNat []) := by
  have hlen : words_list.length ≠ 0 := by
    simpa using List.length_pos.mpr h |>.ne'
  have hlen2 : (words_list.length : Int) ≠ 0 := by exact_mod_cast hlen
  refine ⟨?_, Int.emod_nonneg _ hlen2, ?_⟩
  · simp only [choose_word_from_list, if_neg hlen]
    have harg : index + (words_list.length : Int) - 1
        = (index - 1) + (words_list.length : Int) * 1 := by ring
    rw [harg, Int.add_mul_emod_self_left]
  · simp only [choose_word_from_list, if_neg hlen]

/-- Claim C5, witness: circular resolution on the one-word list ["a"] at
index 0. -/
theorem choose_word_circular_witness :
    choose_word_from_list [['a']] 0
        = choose_word_from_list [['a']] (0 + (([['a']] : List PyStr).length : Int)) ∧
      0 ≤ ((0 : Int) - 1) % ((([['a']] : List PyStr).length : Int)) ∧
      choose_word_from_list [['a']] 0
        = Except.ok
            (([['a']] : List PyStr).getD
              ((((0 : Int) - 1) % ((([['a']] : List PyStr).length : Int))).toNat) []) := by
  exact choose_word_circular [['a']] 0 (by decide)

/-- Claim C6: `check_valid_input` returns True exactly when the guess is a
single character in the range from 'a' to 'z' that is not already a member of
the guessed-letter list. -/
theorem check_valid_input_iff (letter : PyStr) (G : List PyStr) :
    check_valid_input letter G = true ↔
      ((∃ c, letter = [c] ∧ 'a' ≤ c ∧ c ≤ 'z') ∧ letter ∉ G) := by
  match letter with
  | [] => simp [check_valid_input]
  | [c] => simp [check_valid_input, pyStrLe_single, List.elem_iff]
  | a :: b :: t => simp [check_valid_input]

/-- Claim C7: with secret word "a" and raw inputs "A", "b", "c", "d", "e",
"f", the session ends lost with the wrong-guess counter at 6 although
`check_win` is true (the lowered "A" put "a" into the guessed list, yet the
raw comparison on line 499 counted the guess as wrong), so "lost iff the
counter equals 6 and the game is not won" fails on the code. -/
theorem hangman_declares_loss_while_won :
    (hangman ['a'] [['A'], ['b'], ['c'], ['d'], ['e'], ['f']]).2 = Outcome.lost ∧
      (hangman ['a'] [['A'], ['b'], ['c'], ['d'], ['e'], ['f']]).1.num_of_tries = 6 ∧
      check_win ['a']
        ((hangman ['a'] [['A'], ['b'], ['c'], ['d'], ['e'], ['f']]).1.old_letters_guessed)
        = true := by
  decide

/-- Claim C8: with the word list ["cat", "dog"], index 0 resolves to "dog"
and index 3 resolves to "cat". -/
theorem choose_word_cat_dog_scenario :
    choose_word_from_list [['c', 'a', 't'], ['d', 'o', 'g']] 0
        = Except.ok ['d', 'o', 'g'] ∧
      choose_word_from_list [['c', 'a', 't'], ['d', 'o', 'g']] 3
        = Except.ok ['c', 'a', 't'] := by
  exact ⟨rfl, rfl⟩

/-- Claim C9: `show_hidden_word` and `check_win` depend only on which letters
are members of the guessed-letter list: two lists with the same members give
equal results on every secret word. -/
theorem reveal_and_win_membership_only (w : PyStr) (G1 G2 : List PyStr)
    (h : ∀ s : PyStr, s ∈ G1 ↔ s ∈ G2) :
    show_hidden_word w G1 = show_hidden_word w G2 ∧
      check_win w G1 = check_win w G2 := by
  have hc : ∀ s : PyStr, G1.contains s = G2.contains s := by
    intro s
    by_cases hs : s ∈ G2
    · have h1 : s ∈ G1 := (h s).mpr hs
      simp [hs, h1]
    · have h1 : s ∉ G1 := fun hx => hs ((h s).mp hx)
      simp [hs, h1]
  constructor
  · have hfun : (fun letter => if G1.contains [letter] then [letter] else ['_'])
        = (fun letter => if G2.contains [letter] then [letter] else ['_']) :=
      funext fun c => by rw [hc [c]]
    unfold show_hidden_word revealed_word_chars_list
    rw [hfun]
  · have hfun : (fun i => G1.contains [i]) = (fun i => G2.contains [i]) :=
      funext fun c => hc [c]
    unfold check_win
    rw [hfun]

/-- Claim C9, witness: the lists ["a", "b"] and ["b", "a", "a"] have the same
members, and reveal and win agree on the secret word "cab". -/
theorem reveal_and_win_membership_only_witness :
    show_hidden_word ['c', 'a', 'b'] [['a'], ['b']]
        = show_hidden_word ['c', 'a', 'b'] [['b'], ['a'], ['a']] ∧
      check_win ['c', 'a', 'b'] [['a'], ['b']]
        = check_win ['c', 'a', 'b'] [['b'], ['a'], ['a']] := by
  exact reveal_and_win_membership_only ['c', 'a', 'b'] [['a'], ['b']]
    [['b'], ['a'], ['a']]
    (by intro s; constructor <;> (intro hs; simp at hs ⊢; tauto))

/-- Claim C10: for the empty secret word, `check_win` returns true for every
guessed-letter list, the empty one included. -/
theorem check_win_empty_secret_word (G : List PyStr) : check_win [] G = true := rfl

end Hangman
